import Mathlib

/-
Verification model of the reduct data-transformation pipeline
(src/transform_data.py of the repository Sanyam07/reduct).

Modelling conventions.
* A pandas DataFrame cell is either present or missing (NaN/None); numeric
  cells are modelled over the rationals, categorical cells over strings.
* A categorical pandas column carries its declared category set in addition
  to its values (the pandas categorical dtype); the category set may contain
  categories that do not appear among the values, exactly as in pandas
  (for example after row filtering, which never shrinks the category set).
* In-place mutation is modelled by explicit state passing: a function that
  in Python may mutate the object bound to the callers variable returns the
  final value of that variable alongside its result.  Each pandas in-place
  statement becomes a rebinding of the owning variable.
* Python exceptions become an explicit error channel (Except).  The codes
  ValueError raises in complete_missing_data at lines 52, 54 and 98 of
  transform_data.py are the errors the specification calls
  ConfigurationError; the taxonomy of the specification is the TransformError
  type below.  The constructor preconditionError exists so that the
  specification error named PreconditionError is representable; no function
  of the source constructs it, because the source contains no missing-value
  check.  Likewise dimensionError is never constructed, because
  pca_transform contains no shape check.
* Python while loops that disambiguate sentinel labels are modelled with an
  explicit fuel argument; the fuel passed by the callers (number of observed
  values plus one) bounds the number of iterations the Python loop can make,
  because successive candidate labels are pairwise distinct and every
  iteration requires the current candidate to still collide.
-/

/-- The FieldType tag of field_info, a string in the source
(Numeric, Categorical, OrderedCategorical). -/
inductive FieldType where
  | Numeric
  | Categorical
  | OrderedCategorical
deriving DecidableEq, Repr

/-- One DataFrame column: a numeric column of optional rationals, or a
pandas categorical column of optional strings together with its declared
category list. -/
inductive Column where
  | numeric (vals : List (Option ℚ))
  | categorical (vals : List (Option String)) (cats : List String)
deriving DecidableEq, Repr

/-- A DataFrame: a sample index and an ordered list of named columns. -/
structure Dataset where
  index : List String
  fields : List (String × Column)
deriving DecidableEq, Repr

/-- The error taxonomy of the specification, covering every raise site of
the source (see the header comment). -/
inductive TransformError where
  | configurationError (msg : String)
  | preconditionError (msg : String)
  | dimensionError (msg : String)
  | valueError (msg : String)
  | indexError (msg : String)
deriving DecidableEq, Repr

/-- Classifier for ConfigurationError. -/
def isConfigErr : TransformError → Bool
  | .configurationError _ => true
  | _ => false

/-- Classifier for PreconditionError. -/
def isPreErr : TransformError → Bool
  | .preconditionError _ => true
  | _ => false

/-- Does the result carry an error satisfying the classifier p. -/
def errPred (p : TransformError → Bool) : Except TransformError α → Bool
  | .error e => p e
  | .ok _ => false

/-- The result is a ConfigurationError. -/
def isConfigErrorR (r : Except TransformError α) : Bool := errPred isConfigErr r

/-- The result is a PreconditionError. -/
def isPreconditionErrorR (r : Except TransformError α) : Bool := errPred isPreErr r

/-- The result is a success. -/
def isOkR : Except TransformError α → Bool
  | .ok _ => true
  | .error _ => false

/-- Sequencing of a fallible function over a list, modelling a Python for
loop whose body may raise: the first raise aborts the loop. -/
def exceptMapM (f : α → Except TransformError β) : List α → Except TransformError (List β)
  | [] => .ok []
  | a :: l =>
    match f a with
    | .error e => .error e
    | .ok b =>
      match exceptMapM f l with
      | .error e => .error e
      | .ok bs => .ok (b :: bs)

/-- Column has at least one missing value (data.isnull().sum() greater than
zero for this column). -/
def Column.hasMissing : Column → Bool
  | .numeric vs => vs.any Option.isNone
  | .categorical vs _ => vs.any Option.isNone

/-- Cell at row j of the column is missing. -/
def Column.isMissingAt (c : Column) (j : Nat) : Bool :=
  match c with
  | .numeric vs => (vs.getD j none).isNone
  | .categorical vs _ => (vs.getD j none).isNone

/-- The dataset has at least one missing value. -/
def Dataset.hasMissing (d : Dataset) : Bool :=
  d.fields.any (fun f => f.2.hasMissing)

/-- Boolean-mask row selection (df.loc[mask, :] for an aligned mask). -/
def filterMask (mask : List Bool) (xs : List α) : List α :=
  ((xs.zip mask).filter (fun p => p.2)).map (fun p => p.1)

/-- Row selection on a column; pandas keeps the category set of a
categorical column unchanged when rows are dropped. -/
def Column.filterRows (c : Column) (mask : List Bool) : Column :=
  match c with
  | .numeric vs => .numeric (filterMask mask vs)
  | .categorical vs cats => .categorical (filterMask mask vs) cats

/-- Row selection on a whole DataFrame (data.loc[samples_kept, :]). -/
def Dataset.filterRows (d : Dataset) (mask : List Bool) : Dataset :=
  ⟨filterMask mask d.index, d.fields.map (fun f => (f.1, f.2.filterRows mask))⟩

/-- Mean of the non-missing entries; none when every entry is missing
(pandas mean of an all-missing column is NaN). -/
def meanOpt (col : List (Option ℚ)) : Option ℚ :=
  let xs := col.filterMap id
  if xs.length = 0 then none else some (xs.sum / (xs.length : ℚ))

/-- The numeric fill loop body of complete_missing_data (lines 67 to 73):
missing cells become zero, or the column mean of the original data.  With
numeric_fill equal to mean and no non-missing entry, the assigned mean is
NaN and the cells stay missing, exactly as in pandas. -/
def fillNum (numeric_fill : String) (col : List (Option ℚ)) : List (Option ℚ) :=
  if numeric_fill = "zeroes" then
    col.map (fun v => some (v.getD 0))
  else if numeric_fill = "mean" then
    col.map (fun v =>
      match v with
      | none => meanOpt col
      | some x => some x)
  else col

/-- The values that appear in the column, in order of first appearance and
without duplicates (pandas Series.unique on the non-missing values). -/
def uniqueVals (vals : List (Option String)) : List String :=
  (vals.filterMap id).eraseDups

/-- The while loop of lines 82 to 83: append underscores to the candidate
until it no longer appears among the observed values.  Fuel bounds the
iterations; the callers pass one more than the number of observed values,
which suffices because the successive candidates are pairwise distinct and
each iteration consumes a distinct colliding member of the observed list. -/
def disambiguate (fuel : Nat) (taken : List String) (v : String) : String :=
  match fuel with
  | 0 => v
  | f + 1 => if v ∈ taken then disambiguate f taken (v ++ "_") else v

/-- The while loop of lines 92 to 93: append an underscore to every label of
the batch while any observed value lies in the batch. -/
def batchDisambiguate (fuel : Nat) (observed : List String) (news : List String) : List String :=
  match fuel with
  | 0 => news
  | f + 1 =>
    if observed.any (fun v => v ∈ news) then
      batchDisambiguate f observed (news.map (fun s => s ++ "_"))
    else news

/-- Categorical addition of new categories (Series.cat.add_categories,
line 86 and line 94): pandas raises ValueError when a new category is
already a declared category. -/
def addCategories (cats news : List String) : Except TransformError (List String) :=
  if news.any (fun n => n ∈ cats) then
    .error (.valueError "new categories must not include old categories")
  else .ok (cats ++ news)

/-- Fill the missing cells of a categorical column with the common Unknown
sentinel (lines 78 to 87).  The collision loop checks the observed values
(data[field].unique()); add_categories checks the declared category set. -/
def fillCatCommon (vals : List (Option String)) (cats : List String) :
    Except TransformError (List (Option String) × List String) :=
  let observed := uniqueVals vals
  let new_value := disambiguate (observed.length + 1) observed "Unknown"
  (addCategories cats [new_value]).map
    (fun cats2 => (vals.map (fun v => some (v.getD new_value)), cats2))

/-- Assign the batch of new labels to the missing positions in row order
(completed.loc[missing_values, field] = new_values, line 95). -/
def assignToMissing (vals : List (Option String)) (news : List String) : List (Option String) :=
  match vals, news with
  | [], _ => []
  | none :: vs, n :: ns => some n :: assignToMissing vs ns
  | none :: vs, [] => none :: assignToMissing vs []
  | some v :: vs, ns => some v :: assignToMissing vs ns

/-- Fill the missing cells of a categorical column with per-cell sentinels
Unknown1..k (lines 88 to 95). -/
def fillCatUnique (vals : List (Option String)) (cats : List String) :
    Except TransformError (List (Option String) × List String) :=
  let k := (vals.filter (fun v => v.isNone)).length
  let init := (List.range k).map (fun n => "Unknown" ++ toString (n + 1))
  let observed := vals.filterMap id
  let news := batchDisambiguate (observed.length + 1) observed init
  (addCategories cats news).map (fun cats2 => (assignToMissing vals news, cats2))

/-- The numeric fill pass (the first for loop of complete_missing_data,
lines 67 to 73): every field that is tagged Numeric and has a missing value
gets its missing cells filled.  Fields whose tag disagrees with the stored
column kind are left unchanged; the source would fail on such ill-formed
input and the well-formedness invariant of section 3 of the specification
excludes it. -/
def fillPass1 (numeric_fill : String) (zipped : List ((String × Column) × FieldType)) :
    List (String × Column) :=
  zipped.map (fun p =>
    match p with
    | ((n, Column.numeric vs), FieldType.Numeric) =>
      if vs.any Option.isNone then (n, Column.numeric (fillNum numeric_fill vs))
      else (n, Column.numeric vs)
    | (f, _) => f)

/-- Packaging of the fill_values exit (lines 100 to 102): a raise inside the
categorical loop escapes the function; otherwise the completed copy is
returned with the all-true masks, and in both cases the callers data is
unchanged. -/
def fillResultPair (d : Dataset) (t : List FieldType)
    (r : Except TransformError (List (String × Column))) :
    (Except TransformError (Dataset × List Bool × List Bool)) × Dataset :=
  match r with
  | .error e => (.error e, d)
  | .ok completedFields =>
    (.ok (⟨d.index, completedFields⟩,
          t.map (fun _ => true),
          d.index.map (fun _ => true)), d)

/-- The categorical fill loop body (lines 75 to 95) for one field. -/
def fillCatField (categorical_fill : String) (p : (String × Column) × FieldType) :
    Except TransformError (String × Column) :=
  match p with
  | ((n, Column.categorical vs cats), t) =>
    if t = FieldType.Categorical ∨ t = FieldType.OrderedCategorical then
      if vs.any Option.isNone then
        if categorical_fill = "common_unknown" then
          (fillCatCommon vs cats).map (fun r => (n, Column.categorical r.1 r.2))
        else
          (fillCatUnique vs cats).map (fun r => (n, Column.categorical r.1 r.2))
      else .ok (n, Column.categorical vs cats)
    else .ok (n, Column.categorical vs cats)
  | (f, _) => .ok f

/-- complete_missing_data (transform_data.py lines 11 to 102).  The second
component of the returned pair is the final state of the callers data
object: the source reads data but only ever writes to completed, which is
either a row or column selection or an explicit copy (line 65), so every
exit path returns the callers data unchanged.  Within the fill_values
branch the two validation raises (lines 51 to 54) happen before any fill
work.  Result on success mirrors the source tuple
(completed, fields_kept, samples_kept). -/
def complete_missing_data (data : Dataset) (fieldTypes : List FieldType)
    (method : String) (numeric_fill : String) (categorical_fill : String) :
    (Except TransformError (Dataset × List Bool × List Bool)) × Dataset :=
  if method = "drop_fields" then
    (.ok (⟨data.index, data.fields.filter (fun f => !f.2.hasMissing)⟩,
          data.fields.map (fun f => !f.2.hasMissing),
          data.index.map (fun _ => true)), data)
  else if method = "drop_samples" then
    let samples_kept :=
      (List.range data.index.length).map
        (fun j => !(data.fields.any (fun f => f.2.isMissingAt j)))
    (.ok (data.filterRows samples_kept,
          fieldTypes.map (fun _ => true),
          samples_kept), data)
  else if method = "fill_values" then
    if numeric_fill = "zeroes" ∨ numeric_fill = "mean" then
      if categorical_fill = "common_unknown" ∨ categorical_fill = "unique_unknown" then
        let zipped := data.fields.zip fieldTypes
        let pass1 := fillPass1 numeric_fill zipped
        fillResultPair data fieldTypes
          (exceptMapM (fillCatField categorical_fill) (pass1.zip fieldTypes))
      else
        (.error (.configurationError
          ("Unknown missing value method for categorical fields: " ++ categorical_fill)), data)
    else
      (.error (.configurationError
        ("Unknown missing value method for numeric fields: " ++ numeric_fill)), data)
  else
    (.error (.configurationError ("Unknown missing data method " ++ method)), data)

/-- Completed dataset of a successful resolver result. -/
def completedOf (r : Except TransformError (Dataset × List Bool × List Bool)) : Dataset :=
  match r with
  | .ok t => t.1
  | .error _ => ⟨[], []⟩

/-- An all-numeric DataFrame (the encoded matrix and the embeddings):
sample index, column names, and rows of optional rationals (a missing
numeric input cell passes through the encoder as NaN). -/
structure NumFrame where
  index : List String
  columns : List String
  rows : List (List (Option ℚ))
deriving DecidableEq, Repr

/-- Horizontal concatenation of two frames over the same index
(pd.concat(..., axis=1) with identical indexes). -/
def hconcat (a b : NumFrame) : NumFrame :=
  ⟨a.index, a.columns ++ b.columns, List.zipWith (fun r s => r ++ s) a.rows b.rows⟩

/-- Row i of np.eye(n): an indicator vector with one at position i. -/
def eyeRow : Nat → Nat → List (Option ℚ)
  | 0, _ => []
  | n + 1, 0 => some 1 :: List.replicate n (some 0)
  | n + 1, i + 1 => some 0 :: eyeRow n i

/-- One row of the one-hot matrix (np.eye(N)[code], line 120): a present
value encodes as the indicator of its category position; a missing value
has pandas category code -1, and numpy indexing by -1 selects the LAST row
of the identity matrix, so a missing value silently encodes as the last
category; with zero categories numpy raises IndexError instead.  A value
outside the declared category list cannot occur in a pandas categorical and
is mapped to an error for totality. -/
def oneHotRow (cats : List String) : Option String → Except TransformError (List (Option ℚ))
  | some v =>
    if v ∈ cats then .ok (eyeRow cats.length (cats.indexOf v))
    else .error (.valueError ("value not among declared categories: " ++ v))
  | none =>
    if cats.length = 0 then
      .error (.indexError "index -1 is out of bounds for axis 0 with size 0")
    else .ok (eyeRow cats.length (cats.length - 1))

/-- one_hot (transform_data.py lines 106 to 123) on a categorical series,
with the categories=None path the encoder uses: series.astype(category)
keeps the declared categories of an already-categorical series, including
declared categories that appear in no row.  Column names are
field_category; the index is the series index. -/
def one_hot (name : String) (index : List String) (vals : List (Option String))
    (cats : List String) : Except TransformError NumFrame :=
  match exceptMapM (oneHotRow cats) vals with
  | .error e => .error e
  | .ok rows => .ok ⟨index, cats.map (fun c => name ++ "_" ++ c), rows⟩

/-- Insertion sort (ascending) used to model the sorted category order
pandas produces when astype(category) builds categories afresh. -/
def insertSorted (x : ℚ) : List ℚ → List ℚ
  | [] => [x]
  | y :: ys => if x ≤ y then x :: y :: ys else y :: insertSorted x ys

/-- Sort a list of rationals ascending. -/
def sortRats (l : List ℚ) : List ℚ := l.foldr insertSorted []

/-- Encoding of one categorical-tagged field by the encoder (line 145).  A
categorical column is one-hot encoded over its declared categories.  A
numeric column that is tagged categorical is first converted by
astype(category), whose categories are the sorted distinct values; this
branch is outside the well-formedness invariant of the specification and
only exists for totality. -/
def encodeField (name : String) (index : List String) : Column → Except TransformError NumFrame
  | .categorical vals cats => one_hot name index vals cats
  | .numeric vals =>
    one_hot name index (vals.map (Option.map toString))
      ((sortRats (vals.filterMap id).eraseDups).map toString)

/-- Tag test for Numeric. -/
def numericTag : FieldType → Bool
  | .Numeric => true
  | _ => false

/-- Tag test for Categorical or OrderedCategorical. -/
def catTag : FieldType → Bool
  | .Categorical => true
  | .OrderedCategorical => true
  | _ => false

/-- The numeric-tagged fields of the dataset, in original order
(data.loc[:, numeric_fieldspec], line 134 and 146). -/
def numericFieldsOf (d : Dataset) (t : List FieldType) : List (String × Column) :=
  ((d.fields.zip t).filter (fun p => numericTag p.2)).map (fun p => p.1)

/-- The categorical-tagged fields, in original order (line 135). -/
def catFieldsOf (d : Dataset) (t : List FieldType) : List (String × Column) :=
  ((d.fields.zip t).filter (fun p => catTag p.2)).map (fun p => p.1)

/-- Names of the numeric-tagged fields. -/
def numericFieldNames (d : Dataset) (t : List FieldType) : List String :=
  (numericFieldsOf d t).map (fun f => f.1)

/-- Numeric cell of a column at row j; a categorical column has no numeric
cell (the well-formedness invariant keeps this branch unreachable). -/
def numCellAt (c : Column) (j : Nat) : Option ℚ :=
  match c with
  | .numeric vs => vs.getD j none
  | .categorical _ _ => none

/-- Row-major view of the numeric-tagged sub-frame. -/
def numericRows (numFields : List (String × Column)) (n : Nat) : List (List (Option ℚ)) :=
  (List.range n).map (fun j => numFields.map (fun f => numCellAt f.2 j))

/-- Python dict assignment d[k] = v: replace the value at an existing key in
place, otherwise append the pair. -/
def dictInsert : List (String × String) → String → String → List (String × String)
  | [], k, v => [(k, v)]
  | p :: rest, k, v =>
    if p.1 = k then (k, v) :: rest else p :: dictInsert rest k v

/-- Fold dict assignments over a list of pairs. -/
def foldIns (m : List (String × String)) (ps : List (String × String)) :
    List (String × String) :=
  ps.foldl (fun acc p => dictInsert acc p.1 p.2) m

/-- Python dict lookup. -/
def dictLookup : List (String × String) → String → Option String
  | [], _ => none
  | p :: rest, k => if p.1 = k then some p.2 else dictLookup rest k

/-- The dict assignments of preprocess lines 153 to 158 in source order:
first every numeric field name mapped to itself, then, per categorical
field, each of its one-hot column names mapped to the field. -/
def provPairs (numNames : List String) (catNames : List String) (encs : List NumFrame) :
    List (String × String) :=
  numNames.map (fun f => (f, f)) ++
    (catNames.zip encs).flatMap (fun p => p.2.columns.map (fun c => (c, p.1)))

/-- Standardize one numeric column in place, modelling lines 140 to 141:
subtract the column mean of the current data, then divide by the standard
deviation of the (already centered) column.  The standard deviation is a
floating-point library computation (numpy sqrt) with no exact rational
value, so it is passed in as the oracle stdFn; the claims proved below do
not depend on its value.  Missing cells stay missing through both steps, as
NaN does in pandas. -/
def scaleCol (stdFn : List (Option ℚ) → ℚ) (vs : List (Option ℚ)) : List (Option ℚ) :=
  let m := meanOpt vs
  let centered := vs.map (fun v =>
    match v, m with
    | some x, some mu => some (x - mu)
    | _, _ => none)
  centered.map (fun v => v.map (fun x => x / stdFn centered))

/-- The in-place scaling statement of preprocess applied to the callers
dataset: numeric-tagged columns are standardized, all others untouched. -/
def scaleEntry (stdFn : List (Option ℚ) → ℚ) (f : String × Column) (ty : FieldType) :
    String × Column :=
  match f, ty with
  | (n, Column.numeric vs), FieldType.Numeric => (n, Column.numeric (scaleCol stdFn vs))
  | f2, _ => f2

/-- The whole in-place scaling statement over the dataset. -/
def Dataset.scaled (stdFn : List (Option ℚ) → ℚ) (d : Dataset) (t : List FieldType) : Dataset :=
  ⟨d.index, List.zipWith (scaleEntry stdFn) d.fields t⟩

/-- The encoding part of preprocess (lines 143 to 160) on the
possibly-scaled data: one-hot encode each categorical-tagged field, prepend
the numeric sub-frame (concatenation order of line 146), and build the
provenance dict. -/
def preprocessCore (d1 : Dataset) (t : List FieldType) :
    Except TransformError (NumFrame × List (String × String)) :=
  match exceptMapM (fun f => encodeField f.1 d1.index f.2) (catFieldsOf d1 t) with
  | .error e => .error e
  | .ok encs =>
    let base : NumFrame :=
      ⟨d1.index, numericFieldNames d1 t, numericRows (numericFieldsOf d1 t) d1.index.length⟩
    .ok (encs.foldl hconcat base,
         foldIns [] (provPairs (numericFieldNames d1 t)
                               ((catFieldsOf d1 t).map (fun f => f.1)) encs))

/-- preprocess (transform_data.py lines 125 to 160).  When scale is true the
two statements of lines 140 to 141 mutate the callers dataset in place
before encoding; the second component of the result is the final state of
the callers data object.  There is no missing-value check anywhere in the
function. -/
def preprocess (stdFn : List (Option ℚ) → ℚ) (data : Dataset) (fieldTypes : List FieldType)
    (scale : Bool) :
    (Except TransformError (NumFrame × List (String × String))) × Dataset :=
  let d1 := if scale then Dataset.scaled stdFn data fieldTypes else data
  (preprocessCore d1 fieldTypes, d1)

/-- Encoded-matrix column list of a successful encoder result. -/
def colsOf (r : Except TransformError (NumFrame × List (String × String))) : List String :=
  match r with
  | .ok p => p.1.columns
  | .error _ => []

/-- Provenance dict of a successful encoder result. -/
def provOf (r : Except TransformError (NumFrame × List (String × String))) :
    List (String × String) :=
  match r with
  | .ok p => p.2
  | .error _ => []

/-- The distinct values appearing in a categorical column (first-seen
order), the quantity the claim about one-hot width counts. -/
def distinctAppearing (vals : List (Option String)) : List String :=
  (vals.filterMap id).eraseDups

/-- Result of one sklearn PCA fit: the transformed rows, the components
matrix (one row per component, one entry per input column) and the
explained variance list. -/
structure PCAFit where
  transformed : List (List ℚ)
  components : List (List ℚ)
  ratios : List ℚ

/-- Modelled from the spec: the sklearn PCA object used by pca_transform,
tsne_transform and umap_transform.  sklearn is an external library, absent
from src/, so its fit is an oracle constrained by its documented contract,
quoted by sections 4.3 and 8 of the specification: fit_transform returns
one row per input sample with one entry per requested component, and
explained_variance_ratio_ has one non-negative entry per component, sorted
in decreasing order (first component explains most variance). -/
structure PCABackend where
  fit : Nat → List (List (Option ℚ)) → PCAFit
  fit_rows : ∀ n rows, (fit n rows).transformed.length = rows.length
  fit_width : ∀ n rows, ∀ r ∈ (fit n rows).transformed, r.length = n
  ratios_len : ∀ n rows, (fit n rows).ratios.length = n
  ratios_nonneg : ∀ n rows, ∀ q ∈ (fit n rows).ratios, 0 ≤ q
  ratios_sorted : ∀ n rows, ((fit n rows).ratios).Sorted (fun a b => b ≤ a)

/-- The output dimension names PCA1..PCAk (line 178). -/
def pcaNames (k : Nat) : List String :=
  (List.range k).map (fun n => "PCA" ++ toString (n + 1))

/-- What pca_transform returns: the ratios carried by the fitted pca
object, the transformed data and the labelled components. -/
structure PCAOutput where
  ratios : List ℚ
  transformed : NumFrame
  components : NumFrame

/-- pca_transform (transform_data.py lines 163 to 188).  num_pcs is
min(max_pcs, data.shape[1], data.shape[0]) with shape = (len(index),
len(columns)); the transformed frame keeps the input index and is named
PCA1..PCAk; the components matrix is transposed to be indexed by the input
columns.  The function contains no shape or missing-value check and no
raise statement: every input yields an output of this form. -/
def pca_transform (B : PCABackend) (data : NumFrame) (max_pcs : Nat) : PCAOutput :=
  let num_pcs := min (min max_pcs data.columns.length) data.index.length
  let f := B.fit num_pcs data.rows
  { ratios := f.ratios
  , transformed := ⟨data.index, pcaNames num_pcs, f.transformed.map (fun r => r.map some)⟩
  , components :=
      ⟨data.columns, pcaNames num_pcs,
       (List.range data.columns.length).map
         (fun i => f.components.map (fun r => some (r.getD i 0)))⟩ }

/-- Modelled from the spec: a fitted sklearn MDS embedding, an oracle from
the input matrix to a two-dimensional embedding. -/
def MDSModel : Type := List (List (Option ℚ)) → List (List ℚ)

/-- mds_transform (transform_data.py lines 190 to 206): embed, keep the
input index, name the two dimensions.  No missing-value check exists. -/
def mds_transform (M : MDSModel) (data : NumFrame) : NumFrame :=
  ⟨data.index, ["MDS dim A", "MDS dim B"], (M data.rows).map (fun r => r.map some)⟩

/-- One t-SNE run: the embedding and the final Kullback-Leibler divergence
the fitted object reports. -/
structure TSNERun where
  embedding : List (List ℚ)
  kl : ℚ

/-- Modelled from the spec: the stochastic t-SNE algorithm; run i of the
multi-run loop is an independent fit, so the oracle takes the run number
and the compressed matrix. -/
def TSNEModel : Type := Nat → List (List (Option ℚ)) → TSNERun

/-- The shared optional PCA pre-reduction of tsne_transform (lines 237 to
243) and umap_transform (lines 293 to 299): reduce to pca_dims dimensions
exactly when pca_dims is not None and is strictly below both the column
count and the row count; otherwise pass data.values through unchanged. -/
def pca_pre_reduce (P : PCABackend) (data : NumFrame) (pca_dims : Option Nat) :
    List (List (Option ℚ)) :=
  match pca_dims with
  | some k =>
    if k < data.columns.length ∧ k < data.index.length then
      ((P.fit k data.rows).transformed).map (fun r => r.map some)
    else data.rows
  | none => data.rows

/-- The multi-run selection loop of tsne_transform (lines 246 to 258): fit
run zero, then for each of the remaining n_runs - 1 runs keep the new fit
exactly when its divergence is strictly lower than the current best. -/
def tsneStep (T : TSNEModel) (compressed : List (List (Option ℚ)))
    (cur : TSNERun) (i : Nat) : TSNERun :=
  let nt := T (i + 1) compressed
  if nt.kl < cur.kl then nt else cur

/-- The best run after the initial fit and the loop over the remaining
n_runs - 1 reruns. -/
def bestOf (T : TSNEModel) (compressed : List (List (Option ℚ))) (n_runs : Nat) : TSNERun :=
  (List.range (n_runs - 1)).foldl (tsneStep T compressed) (T 0 compressed)

/-- What tsne_transform returns: the selected fitted run and the embedded
frame built from it. -/
structure TSNEOutput where
  fit : TSNERun
  embedded : NumFrame

/-- tsne_transform (transform_data.py lines 209 to 263): optional PCA
pre-reduction, then the best of n_runs independent runs by lowest final
divergence; the embedding keeps the input index and is named
tSNE dim A / tSNE dim B.  No missing-value check exists.  The perplexity,
learning-rate and iteration-count parameters are absorbed into the fitted
oracle because no claim depends on them. -/
def tsne_transform (P : PCABackend) (T : TSNEModel) (data : NumFrame)
    (pca_dims : Option Nat) (n_runs : Nat) : TSNEOutput :=
  let compressed := pca_pre_reduce P data pca_dims
  let best := bestOf T compressed n_runs
  { fit := best
  , embedded := ⟨data.index, ["tSNE dim A", "tSNE dim B"],
                 best.embedding.map (fun r => r.map some)⟩ }

/-- Modelled from the spec: a fitted sklearn/umap-learn UMAP embedding
oracle (n_neighbors and min_dist absorbed into the oracle). -/
def UMAPModel : Type := List (List (Option ℚ)) → List (List ℚ)

/-- umap_transform (transform_data.py lines 268 to 310): the same optional
PCA pre-reduction as t-SNE, then a single UMAP fit; the embedding keeps the
input index and is named UMAP dim A / UMAP dim B.  No missing-value check
exists. -/
def umap_transform (P : PCABackend) (U : UMAPModel) (data : NumFrame)
    (pca_dims : Option Nat) : NumFrame :=
  ⟨data.index, ["UMAP dim A", "UMAP dim B"],
   (U (pca_pre_reduce P data pca_dims)).map (fun r => r.map some)⟩

/-- Replicated rationals are sorted under the decreasing order. -/
theorem sorted_ge_replicate (n : Nat) (q : ℚ) :
    (List.replicate n q).Sorted (fun a b => b ≤ a) := by
  induction n with
  | zero => simp [List.Sorted]
  | succ k ih =>
    rw [List.replicate_succ]
    refine List.pairwise_cons.mpr ⟨?_, ih⟩
    intro b hb
    rw [List.eq_of_mem_replicate hb]

/-- A concrete PCA oracle satisfying the backend contract, used to
instantiate witnesses: every requested component is the zero direction with
zero variance. -/
def trivPCA : PCABackend where
  fit := fun n rows =>
    { transformed := rows.map (fun _ => List.replicate n 0)
    , components := []
    , ratios := List.replicate n 0 }
  fit_rows := by intro n rows; simp
  fit_width := by
    intro n rows r hr
    rcases List.mem_map.mp hr with ⟨a, _, rfl⟩
    simp
  ratios_len := by intro n rows; simp
  ratios_nonneg := by
    intro n rows q hq
    rw [List.eq_of_mem_replicate hq]
  ratios_sorted := by intro n rows; exact sorted_ge_replicate n 0

/-- Sum of one encoded row (missing cells contribute nothing). -/
def rowSum (r : List (Option ℚ)) : ℚ := (r.filterMap id).sum

/-- Number of cells equal to one in an encoded row. -/
def countOnes (r : List (Option ℚ)) : Nat :=
  (r.filter (fun v => decide (v = some 1))).length

/-- Every cell of the series is a present value from the declared category
list: the well-formed categorical series with no missing values that the
one-hot width claim quantifies over. -/
def checkVals (vals : List (Option String)) (cats : List String) : Bool :=
  vals.all (fun v =>
    match v with
    | some s => decide (s ∈ cats)
    | none => false)

/-- Column list of a one-hot encoding result. -/
def encColsOf (r : Except TransformError NumFrame) : List String :=
  match r with
  | .ok e => e.columns
  | .error _ => []

/-- A stand-in for the per-column standard-deviation oracle of
pandas .std(): on the concrete columns used below the centered values are
[-1, 0, 1], whose sample standard deviation is exactly one, so the
constant-one oracle agrees with the library there. -/
def stdOne : List (Option ℚ) → ℚ := fun _ => 1

/-- A dataset with one missing numeric cell and one missing categorical
cell: the concrete input on which the encoder is shown to proceed. -/
def dMissing : Dataset :=
  ⟨["r1", "r2"],
   [("x", Column.numeric [some 1, none]),
    ("c", Column.categorical [some "a", none] ["a", "b"])]⟩

/-- A dataset with no missing values at all. -/
def dPlain : Dataset := ⟨["s1"], [("x", Column.numeric [some 1])]⟩

/-- A dataset whose single numeric field is entirely missing: the failing
input of the mean-fill claim. -/
def dAllMissing : Dataset := ⟨["s1", "s2"], [("x", Column.numeric [none, none])]⟩

/-- A dataset where the one-hot column name of the categorical field a with
category b is the string a_b, the name of the numeric field: the provenance
collision input. -/
def dCollide : Dataset :=
  ⟨["r"],
   [("a_b", Column.numeric [some 1]),
    ("a", Column.categorical [some "b"] ["b"])]⟩

/-- A dataset with one numeric field holding 0, 1, 2: its column mean is 1
and the sample standard deviation of the centered column is 1. -/
def dNum012 : Dataset :=
  ⟨["r1", "r2", "r3"], [("x", Column.numeric [some 0, some 1, some 2])]⟩

/-- A dataset with distinct numeric and categorical field names, every
declared category appearing: a collision-free encoder input. -/
def dClean : Dataset :=
  ⟨["r"], [("n", Column.numeric [some 1]), ("c", Column.categorical [some "a"] ["a"])]⟩

/-- The empty matrix: zero rows and zero columns. -/
def frameEmpty : NumFrame := ⟨[], [], []⟩

/-- A matrix with one row and zero columns. -/
def frameNoCols : NumFrame := ⟨["r"], [], [[]]⟩

/-- A small concrete two-column matrix for witnesses. -/
def frameSmall : NumFrame := ⟨["r1"], ["c1", "c2"], [[some 1, some 2]]⟩

/-- A concrete t-SNE oracle for witnesses: run i reports divergence i, so
run zero is the best run. -/
def tsneRunsW : TSNEModel := fun i _ => ⟨[[0, 0]], (i : ℚ)⟩

theorem exceptMapM_errPred {p : TransformError → Bool} {f : α → Except TransformError β}
    (h : ∀ a, errPred p (f a) = false) (l : List α) :
    errPred p (exceptMapM f l) = false := by
  induction l with
  | nil => rfl
  | cons a l ih =>
    simp only [exceptMapM]
    cases hfa : f a with
    | error e =>
      have ha := h a
      rw [hfa] at ha
      exact ha
    | ok b =>
      cases hml : exceptMapM f l with
      | error e =>
        rw [hml] at ih
        exact ih
      | ok bs => rfl

theorem errPred_map {p : TransformError → Bool} {γ β : Type}
    (g : γ → β) (r : Except TransformError γ) :
    errPred p (r.map g) = errPred p r := by
  cases r <;> rfl

theorem exceptMapM_ok_map {f : α → Except TransformError β} {g : α → β} (l : List α)
    (h : ∀ a ∈ l, f a = .ok (g a)) : exceptMapM f l = .ok (l.map g) := by
  induction l with
  | nil => rfl
  | cons a l ih =>
    simp only [exceptMapM]
    rw [h a (List.mem_cons_self a l), ih (fun b hb => h b (List.mem_cons_of_mem a hb))]
    rfl

theorem exceptMapM_ok_length {f : α → Except TransformError β} {l : List α}
    {bs : List β} (h : exceptMapM f l = .ok bs) : bs.length = l.length := by
  induction l generalizing bs with
  | nil =>
    simp only [exceptMapM] at h
    cases h
    rfl
  | cons a l ih =>
    simp only [exceptMapM] at h
    cases hfa : f a with
    | error e => rw [hfa] at h; cases h
    | ok b =>
      rw [hfa] at h
      cases hml : exceptMapM f l with
      | error e => rw [hml] at h; cases h
      | ok bs0 =>
        rw [hml] at h
        cases h
        simp [ih hml]

theorem fillResultPair_snd (d : Dataset) (t : List FieldType)
    (r : Except TransformError (List (String × Column))) :
    (fillResultPair d t r).2 = d := by
  cases r <;> rfl

theorem fillResultPair_errPred (p : TransformError → Bool) (d : Dataset)
    (t : List FieldType) (r : Except TransformError (List (String × Column))) :
    errPred p (fillResultPair d t r).1 = errPred p r := by
  cases r <;> rfl

/-- C10: complete_missing_data never mutates its input: every exit path,
the two configuration-error paths included, returns the callers data object
unchanged, because the source writes only to completed, which is a column
selection, a row selection, or an explicit copy (line 65) of data. -/
theorem complete_missing_data_caller_state (d : Dataset) (t : List FieldType)
    (m nf cf : String) : (complete_missing_data d t m nf cf).2 = d := by
  unfold complete_missing_data
  split
  · rfl
  · split
    · rfl
    · split
      · split
        · split
          · exact fillResultPair_snd _ _ _
          · rfl
        · rfl
      · rfl

/-- C9 (amended): with scale false the encoder leaves the callers dataset
untouched; with scale true the two in-place statements of lines 140 to 141
leave the callers dataset standardized, so a later pipeline invocation on
the same dataset object observes modified data. -/
theorem preprocess_caller_state (stdFn : List (Option ℚ) → ℚ) (d : Dataset)
    (t : List FieldType) :
    (preprocess stdFn d t false).2 = d ∧
    (preprocess stdFn d t true).2 = Dataset.scaled stdFn d t :=
  ⟨rfl, rfl⟩

/-- C9 (counterexample): encoding the dataset with numeric column 0, 1, 2
under scale true changes the callers dataset to the standardized column
-1, 0, 1, so the claim that encoding with either scale value leaves the
input unchanged is false. -/
theorem preprocess_scale_mutates_cex :
    (preprocess stdOne dNum012 [FieldType.Numeric] true).2 =
      ⟨["r1", "r2", "r3"], [("x", Column.numeric [some (-1), some 0, some 1])]⟩ ∧
    decide ((preprocess stdOne dNum012 [FieldType.Numeric] true).2 = dNum012) = false := by
  have hmean : meanOpt [some 0, some 1, some 2] = some 1 := by
    simp [meanOpt]
    norm_num
  have hscale : (preprocess stdOne dNum012 [FieldType.Numeric] true).2 =
      ⟨["r1", "r2", "r3"], [("x", Column.numeric [some (-1), some 0, some 1])]⟩ := by
    show Dataset.scaled stdOne dNum012 [FieldType.Numeric] = _
    simp [Dataset.scaled, scaleEntry, dNum012, scaleCol, hmean, stdOne]
    norm_num
  refine ⟨hscale, ?_⟩
  rw [hscale]
  decide

/-- C3 (code bug): on a dataset whose single numeric field is entirely
missing, fill_values with numeric_fill mean succeeds but writes the pandas
mean of an empty selection, NaN, back into the missing cells, so the
completed output still has missing values, contradicting the claim and the
docstring of complete_missing_data. -/
theorem mean_fill_all_missing_bug :
    isOkR (complete_missing_data dAllMissing [FieldType.Numeric]
      "fill_values" "mean" "common_unknown").1 = true ∧
    Dataset.hasMissing (completedOf (complete_missing_data dAllMissing [FieldType.Numeric]
      "fill_values" "mean" "common_unknown").1) = true := by
  constructor
  · decide
  · decide

/-- C2 (counterexample): with method drop_fields and the unrecognized
numeric_fill string bogus, the resolver succeeds instead of failing,
because the fill-policy strings are validated only inside the fill_values
branch (lines 51 to 54); so the claim that it fails exactly when any of the
three strings is unrecognized is false. -/
theorem fill_policy_unchecked_for_drop_cex :
    isOkR (complete_missing_data dPlain [FieldType.Numeric]
      "drop_fields" "bogus" "bogus").1 = true ∧
    decide ("bogus" = "zeroes" ∨ "bogus" = "mean") = false := by
  constructor
  · decide
  · decide

theorem oneHotRow_no_pre (cats : List String) (v : Option String) :
    errPred isPreErr (oneHotRow cats v) = false := by
  cases v with
  | some s =>
    simp only [oneHotRow]
    split <;> rfl
  | none =>
    simp only [oneHotRow]
    split <;> rfl

theorem one_hot_no_pre (n : String) (idx : List String) (vals : List (Option String))
    (cats : List String) : errPred isPreErr (one_hot n idx vals cats) = false := by
  simp only [one_hot]
  cases h : exceptMapM (oneHotRow cats) vals with
  | error e =>
    have hall := exceptMapM_errPred (fun a => oneHotRow_no_pre cats a) vals
    rw [h] at hall
    exact hall
  | ok rows => rfl

theorem encodeField_no_pre (n : String) (idx : List String) (c : Column) :
    errPred isPreErr (encodeField n idx c) = false := by
  cases c with
  | categorical vals cats => exact one_hot_no_pre n idx vals cats
  | numeric vals => exact one_hot_no_pre n idx _ _

theorem preprocessCore_no_pre (d1 : Dataset) (t : List FieldType) :
    errPred isPreErr (preprocessCore d1 t) = false := by
  simp only [preprocessCore]
  cases h : exceptMapM (fun f => encodeField f.1 d1.index f.2) (catFieldsOf d1 t) with
  | error e =>
    have hall := exceptMapM_errPred
      (fun a => encodeField_no_pre a.1 d1.index a.2) (catFieldsOf d1 t)
    rw [h] at hall
    exact hall
  | ok encs => rfl

/-- C1 (amended): no stage of the pipeline checks for missing values.  The
encoder can never return the PreconditionError of the specification, for
any input (missing values included), and every projection variant is total:
it returns an embedding over the input index for every matrix, rather than
failing on matrices derived from data with missing values.  No
PreconditionError is raised on missing-value-free data either, since none
is ever raised at all. -/
theorem no_missing_value_gate :
    (∀ (stdFn : List (Option ℚ) → ℚ) (d : Dataset) (t : List FieldType) (s : Bool),
      isPreconditionErrorR (preprocess stdFn d t s).1 = false) ∧
    (∀ (B : PCABackend) (d : NumFrame) (m : Nat),
      (pca_transform B d m).transformed.index = d.index) ∧
    (∀ (M : MDSModel) (d : NumFrame), (mds_transform M d).index = d.index) ∧
    (∀ (P : PCABackend) (T : TSNEModel) (d : NumFrame) (pd : Option Nat) (n : Nat),
      (tsne_transform P T d pd n).embedded.index = d.index) ∧
    (∀ (P : PCABackend) (U : UMAPModel) (d : NumFrame) (pd : Option Nat),
      (umap_transform P U d pd).index = d.index) := by
  refine ⟨?_, fun B d m => rfl, fun M d => rfl, fun P T d pd n => rfl, fun P U d pd => rfl⟩
  intro stdFn d t s
  exact preprocessCore_no_pre _ _

/-- C1 (counterexample): a dataset with a missing numeric cell and a
missing categorical cell is encoded successfully (no PreconditionError, no
failure at all): the missing categorical cell is even silently encoded as
the indicator of the last category.  This refutes the claim that the
encoder fails with PreconditionError on data with missing values. -/
theorem preprocess_accepts_missing_cex :
    Dataset.hasMissing dMissing = true ∧
    isOkR (preprocess stdOne dMissing [FieldType.Numeric, FieldType.Categorical] false).1 = true ∧
    colsOf (preprocess stdOne dMissing [FieldType.Numeric, FieldType.Categorical] false).1 =
      ["x", "c_a", "c_b"] := by
  refine ⟨by decide, by decide, by decide⟩

/-- C5: pca_transform on an n_samples by n_features matrix with max_pcs m
produces exactly min(m, n_features, n_samples) output columns, named
PCA1..PCAk, over the input index, with one embedding row per input row of
width k; the explained variance ratios of the fitted object are
non-negative and non-increasing in output order (the backend contract of
sklearn PCA). -/
theorem pca_transform_shape_spec (B : PCABackend) (d : NumFrame) (m : Nat) :
    (pca_transform B d m).transformed.columns =
      pcaNames (min (min m d.columns.length) d.index.length) ∧
    (pca_transform B d m).transformed.columns.length =
      min (min m d.columns.length) d.index.length ∧
    (pca_transform B d m).transformed.index = d.index ∧
    (pca_transform B d m).transformed.rows.length = d.rows.length ∧
    (∀ r ∈ (pca_transform B d m).transformed.rows,
      r.length = min (min m d.columns.length) d.index.length) ∧
    (pca_transform B d m).ratios.length = min (min m d.columns.length) d.index.length ∧
    (∀ q ∈ (pca_transform B d m).ratios, 0 ≤ q) ∧
    ((pca_transform B d m).ratios).Sorted (fun a b => b ≤ a) := by
  refine ⟨rfl, ?_, rfl, ?_, ?_, ?_, ?_, ?_⟩
  · simp [pca_transform, pcaNames]
  · simp [pca_transform, B.fit_rows]
  · intro r hr
    simp only [pca_transform] at hr
    rcases List.mem_map.mp hr with ⟨a, ha, rfl⟩
    rw [List.length_map]
    exact B.fit_width _ _ a ha
  · exact B.ratios_len _ _
  · exact B.ratios_nonneg _ _
  · exact B.ratios_sorted _ _

/-- C6 (amended): pca_transform contains no dimension check and no
DimensionError: on a matrix with zero columns or zero rows it computes
num_pcs = 0 and returns the normal output shape with an empty column list
and an empty variance list, instead of failing. -/
theorem pca_zero_dims_empty (B : PCABackend) (d : NumFrame) (m : Nat)
    (h : d.columns.length = 0 ∨ d.index.length = 0) :
    (pca_transform B d m).transformed.columns = [] ∧
    (pca_transform B d m).ratios = [] := by
  have hk : min (min m d.columns.length) d.index.length = 0 := by
    rcases h with h | h
    · rw [h, Nat.min_zero, Nat.zero_min]
    · rw [h, Nat.min_zero]
  constructor
  · show pcaNames (min (min m d.columns.length) d.index.length) = []
    rw [hk]
    rfl
  · have hlen := (B.ratios_len (min (min m d.columns.length) d.index.length) d.rows).trans hk
    exact List.length_eq_zero.mp hlen

/-- C6 (witness): the amended theorem applied to the concrete one-row
zero-column matrix. -/
theorem pca_zero_dims_empty_witness :
    (frameNoCols.columns.length = 0 ∨ frameNoCols.index.length = 0) ∧
    ((pca_transform trivPCA frameNoCols 5).transformed.columns = [] ∧
     (pca_transform trivPCA frameNoCols 5).ratios = []) :=
  ⟨Or.inl rfl, pca_zero_dims_empty trivPCA frameNoCols 5 (Or.inl rfl)⟩

/-- C6 (counterexample): on the empty matrix (zero rows and zero columns)
pca_transform does not fail with a DimensionError: it returns the normal
result with zero components, an empty index and an empty variance list. -/
theorem pca_zero_dims_cex :
    (pca_transform trivPCA frameEmpty 5).transformed.columns = [] ∧
    (pca_transform trivPCA frameEmpty 5).transformed.index = [] ∧
    (pca_transform trivPCA frameEmpty 5).ratios = [] :=
  ⟨rfl, rfl, rfl⟩

theorem bestOf_range_spec (T : TSNEModel) (c : List (List (Option ℚ))) (m : Nat) :
    (∃ i, i ≤ m ∧ (List.range m).foldl (tsneStep T c) (T 0 c) = T i c) ∧
    (∀ j, j ≤ m → ((List.range m).foldl (tsneStep T c) (T 0 c)).kl ≤ (T j c).kl) := by
  induction m with
  | zero =>
    refine ⟨⟨0, Nat.le_refl 0, rfl⟩, ?_⟩
    intro j hj
    have hj0 : j = 0 := Nat.le_zero.mp hj
    subst hj0
    exact le_refl _
  | succ k ih =>
    rw [List.range_succ, List.foldl_append, List.foldl_cons, List.foldl_nil]
    rcases ih with ⟨⟨i0, hi0, hb⟩, hmin⟩
    by_cases hlt : (T (k + 1) c).kl < ((List.range k).foldl (tsneStep T c) (T 0 c)).kl
    · have hres : tsneStep T c ((List.range k).foldl (tsneStep T c) (T 0 c)) k =
        T (k + 1) c := by
        simp [tsneStep, hlt]
      rw [hres]
      constructor
      · exact ⟨k + 1, Nat.le_refl _, rfl⟩
      · intro j hj
        rcases Nat.lt_or_ge j (k + 1) with hj2 | hj2
        · exact le_trans (le_of_lt hlt) (hmin j (Nat.lt_succ_iff.mp hj2))
        · have hje : j = k + 1 := Nat.le_antisymm hj hj2
          subst hje
          exact le_refl _
    · have hres : tsneStep T c ((List.range k).foldl (tsneStep T c) (T 0 c)) k =
        (List.range k).foldl (tsneStep T c) (T 0 c) := by
        simp [tsneStep, hlt]
      rw [hres]
      constructor
      · exact ⟨i0, Nat.le_succ_of_le hi0, hb⟩
      · intro j hj
        rcases Nat.lt_or_ge j (k + 1) with hj2 | hj2
        · exact hmin j (Nat.lt_succ_iff.mp hj2)
        · have hje : j = k + 1 := Nat.le_antisymm hj hj2
          subst hje
          exact not_lt.mp hlt

/-- C7: tsne_transform applies the PCA pre-reduction exactly when pca_dims
is not None and is strictly below both the column count and the row count,
and otherwise runs on the matrix unchanged; for n_runs at least one it
performs runs 0 to n_runs - 1 independently and its result is the run with
the lowest final divergence (the earliest such run on ties, by the strict
comparison of line 257); the embedding carries the input index, the two
tSNE dimension names, and the rows of the selected run. -/
theorem tsne_transform_contract (P : PCABackend) (T : TSNEModel) (d : NumFrame)
    (pd : Option Nat) (n : Nat) (h : 1 ≤ n) :
    (∀ k, pd = some k → (k < d.columns.length ∧ k < d.index.length) →
      pca_pre_reduce P d pd = ((P.fit k d.rows).transformed).map (fun r => r.map some)) ∧
    (∀ k, pd = some k → ¬(k < d.columns.length ∧ k < d.index.length) →
      pca_pre_reduce P d pd = d.rows) ∧
    (pd = none → pca_pre_reduce P d pd = d.rows) ∧
    (∃ i, i < n ∧ (tsne_transform P T d pd n).fit = T i (pca_pre_reduce P d pd) ∧
      ∀ j, j < n → (tsne_transform P T d pd n).fit.kl ≤ (T j (pca_pre_reduce P d pd)).kl) ∧
    (tsne_transform P T d pd n).embedded.index = d.index ∧
    (tsne_transform P T d pd n).embedded.columns = ["tSNE dim A", "tSNE dim B"] ∧
    (tsne_transform P T d pd n).embedded.rows =
      ((tsne_transform P T d pd n).fit.embedding).map (fun r => r.map some) := by
  refine ⟨?_, ?_, ?_, ?_, rfl, rfl, rfl⟩
  · intro k hk hc
    subst hk
    simp only [pca_pre_reduce]
    rw [if_pos hc]
  · intro k hk hc
    subst hk
    simp only [pca_pre_reduce]
    rw [if_neg hc]
  · intro hk
    subst hk
    rfl
  · rcases bestOf_range_spec T (pca_pre_reduce P d pd) (n - 1) with ⟨⟨i, hi, hb⟩, hmin⟩
    refine ⟨i, by omega, hb, ?_⟩
    intro j hj
    exact hmin j (by omega)

/-- C7 (witness): the contract applied to the concrete one-row two-column
matrix with pca_dims 1 and two runs of the concrete oracle whose run i
reports divergence i. -/
theorem tsne_transform_contract_witness :
    1 ≤ 2 ∧
    ((∀ k, (some 1 : Option Nat) = some k →
        (k < frameSmall.columns.length ∧ k < frameSmall.index.length) →
        pca_pre_reduce trivPCA frameSmall (some 1) =
          ((trivPCA.fit k frameSmall.rows).transformed).map (fun r => r.map some)) ∧
     (∀ k, (some 1 : Option Nat) = some k →
        ¬(k < frameSmall.columns.length ∧ k < frameSmall.index.length) →
        pca_pre_reduce trivPCA frameSmall (some 1) = frameSmall.rows) ∧
     ((some 1 : Option Nat) = none →
        pca_pre_reduce trivPCA frameSmall (some 1) = frameSmall.rows) ∧
     (∃ i, i < 2 ∧ (tsne_transform trivPCA tsneRunsW frameSmall (some 1) 2).fit =
          tsneRunsW i (pca_pre_reduce trivPCA frameSmall (some 1)) ∧
        ∀ j, j < 2 → (tsne_transform trivPCA tsneRunsW frameSmall (some 1) 2).fit.kl ≤
          (tsneRunsW j (pca_pre_reduce trivPCA frameSmall (some 1))).kl) ∧
     (tsne_transform trivPCA tsneRunsW frameSmall (some 1) 2).embedded.index =
        frameSmall.index ∧
     (tsne_transform trivPCA tsneRunsW frameSmall (some 1) 2).embedded.columns =
        ["tSNE dim A", "tSNE dim B"] ∧
     (tsne_transform trivPCA tsneRunsW frameSmall (some 1) 2).embedded.rows =
        ((tsne_transform trivPCA tsneRunsW frameSmall (some 1) 2).fit.embedding).map
          (fun r => r.map some)) :=
  ⟨Nat.le_succ 1,
   tsne_transform_contract trivPCA tsneRunsW frameSmall (some 1) 2 (Nat.le_succ 1)⟩

theorem rowSum_cons (q : ℚ) (r : List (Option ℚ)) : rowSum (some q :: r) = q + rowSum r := by
  simp [rowSum]

theorem rowSum_replicate_zero (n : Nat) : rowSum (List.replicate n (some (0 : ℚ))) = 0 := by
  induction n with
  | zero => rfl
  | succ k ih =>
    rw [List.replicate_succ, rowSum_cons, ih, add_zero]

theorem rowSum_eyeRow (n i : Nat) (h : i < n) : rowSum (eyeRow n i) = 1 := by
  induction n generalizing i with
  | zero => exact absurd h (Nat.not_lt_zero i)
  | succ k ih =>
    cases i with
    | zero =>
      show rowSum (some 1 :: List.replicate k (some 0)) = 1
      rw [rowSum_cons, rowSum_replicate_zero, add_zero]
    | succ j =>
      show rowSum (some 0 :: eyeRow k j) = 1
      rw [rowSum_cons, ih j (Nat.lt_of_succ_lt_succ h), zero_add]

theorem countOnes_cons_zero (r : List (Option ℚ)) : countOnes (some 0 :: r) = countOnes r := by
  simp [countOnes, List.filter_cons]

theorem countOnes_cons_one (r : List (Option ℚ)) : countOnes (some 1 :: r) = countOnes r + 1 := by
  simp [countOnes, List.filter_cons, Nat.add_comm]

theorem countOnes_replicate_zero (n : Nat) :
    countOnes (List.replicate n (some (0 : ℚ))) = 0 := by
  induction n with
  | zero => rfl
  | succ k ih =>
    rw [List.replicate_succ, countOnes_cons_zero, ih]

theorem countOnes_eyeRow (n i : Nat) (h : i < n) : countOnes (eyeRow n i) = 1 := by
  induction n generalizing i with
  | zero => exact absurd h (Nat.not_lt_zero i)
  | succ k ih =>
    cases i with
    | zero =>
      show countOnes (some 1 :: List.replicate k (some 0)) = 1
      rw [countOnes_cons_one, countOnes_replicate_zero]
    | succ j =>
      show countOnes (some 0 :: eyeRow k j) = 1
      rw [countOnes_cons_zero, ih j (Nat.lt_of_succ_lt_succ h)]

/-- C4 (amended): on a categorical series with no missing values whose
values all lie in the declared category list, one_hot succeeds and produces
exactly one indicator column per declared category, named field_category,
one row per sample, and each row sums to exactly one with exactly one cell
equal to one.  The column count equals the number of declared categories,
which is the number N of distinct appearing values exactly when every
declared category appears in the data. -/
theorem one_hot_category_columns (name : String) (idx : List String)
    (vals : List (Option String)) (cats : List String)
    (h : checkVals vals cats = true) :
    ∃ enc, one_hot name idx vals cats = .ok enc ∧
      enc.index = idx ∧
      enc.columns = cats.map (fun c => name ++ "_" ++ c) ∧
      enc.columns.length = cats.length ∧
      enc.rows.length = vals.length ∧
      (∀ r ∈ enc.rows, rowSum r = 1 ∧ countOnes r = 1) := by
  have hv : ∀ v ∈ vals, ∃ s, v = some s ∧ s ∈ cats := by
    intro v hvv
    have hb := List.all_eq_true.mp h v hvv
    cases v with
    | none => cases hb
    | some s => exact ⟨s, rfl, of_decide_eq_true hb⟩
  have hrows : exceptMapM (oneHotRow cats) vals =
      .ok (vals.map (fun v => eyeRow cats.length (cats.indexOf (v.getD "")))) := by
    apply exceptMapM_ok_map
    intro a ha
    rcases hv a ha with ⟨s, rfl, hs⟩
    simp only [oneHotRow, Option.getD]
    rw [if_pos hs]
  refine ⟨⟨idx, cats.map (fun c => name ++ "_" ++ c),
    vals.map (fun v => eyeRow cats.length (cats.indexOf (v.getD "")))⟩, ?_, rfl, rfl, ?_, ?_, ?_⟩
  · simp only [one_hot, hrows]
  · simp
  · simp
  · intro r hr
    rcases List.mem_map.mp hr with ⟨v, hvv, rfl⟩
    rcases hv v hvv with ⟨s, rfl, hs⟩
    have hidx : cats.indexOf s < cats.length := List.indexOf_lt_length.mpr hs
    simp only [Option.getD]
    exact ⟨rowSum_eyeRow _ _ hidx, countOnes_eyeRow _ _ hidx⟩

/-- C4 (witness): the amended theorem applied to a series with two samples
over categories a and b, both appearing. -/
theorem one_hot_category_columns_witness :
    checkVals [some "a", some "b"] ["a", "b"] = true ∧
    (∃ enc, one_hot "f" ["r1", "r2"] [some "a", some "b"] ["a", "b"] = .ok enc ∧
      enc.index = ["r1", "r2"] ∧
      enc.columns = (["a", "b"] : List String).map (fun c => "f" ++ "_" ++ c) ∧
      enc.columns.length = (["a", "b"] : List String).length ∧
      enc.rows.length = ([some "a", some "b"] : List (Option String)).length ∧
      (∀ r ∈ enc.rows, rowSum r = 1 ∧ countOnes r = 1)) :=
  ⟨by decide, one_hot_category_columns "f" ["r1", "r2"] [some "a", some "b"] ["a", "b"] (by decide)⟩

/-- C4 (counterexample): a categorical series with no missing values, one
distinct appearing value a, but declared categories a and b, is one-hot
encoded into two columns, not one: the claim that the encoding of a field
with N distinct appearing values has exactly N columns is false.  Unused
declared categories arise inside the pipeline itself, for example after
resolve with drop_samples, which never shrinks a category set. -/
theorem one_hot_unused_category_cex :
    ([some "a", some "a"] : List (Option String)).all Option.isSome = true ∧
    (distinctAppearing [some "a", some "a"]).length = 1 ∧
    encColsOf (one_hot "f" ["r1", "r2"] [some "a", some "a"] ["a", "b"]) = ["f_a", "f_b"] ∧
    (encColsOf (one_hot "f" ["r1", "r2"] [some "a", some "a"] ["a", "b"])).length = 2 := by
  refine ⟨by decide, by decide, by decide, by decide⟩

theorem addCategories_no_config (cats news : List String) :
    errPred isConfigErr (addCategories cats news) = false := by
  simp only [addCategories]
  split <;> rfl

theorem fillCatCommon_no_config (vals : List (Option String)) (cats : List String) :
    errPred isConfigErr (fillCatCommon vals cats) = false := by
  simp only [fillCatCommon, errPred_map]
  exact addCategories_no_config _ _

theorem fillCatUnique_no_config (vals : List (Option String)) (cats : List String) :
    errPred isConfigErr (fillCatUnique vals cats) = false := by
  simp only [fillCatUnique, errPred_map]
  exact addCategories_no_config _ _

theorem fillCatField_no_config (cf : String) (p : (String × Column) × FieldType) :
    errPred isConfigErr (fillCatField cf p) = false := by
  rcases p with ⟨⟨n, c⟩, t⟩
  cases c with
  | numeric vs => rfl
  | categorical vs cats =>
    simp only [fillCatField]
    split
    · split
      · split
        · rw [errPred_map]
          exact fillCatCommon_no_config _ _
        · rw [errPred_map]
          exact fillCatUnique_no_config _ _
      · rfl
    · rfl

/-- C2 (amended): the resolver fails with a ConfigurationError exactly when
the method string is unrecognized, or the method is fill_values and one of
the two fill-policy strings is unrecognized.  Under drop_fields and
drop_samples the fill-policy strings are never validated (the source checks
them only inside the fill_values branch, lines 51 to 54), and a recognized
combination never produces a ConfigurationError (although fill_values can
still fail with the pandas ValueError of add_categories on data whose
declared categories collide with a sentinel). -/
theorem configuration_error_iff (d : Dataset) (t : List FieldType) (m nf cf : String) :
    isConfigErrorR (complete_missing_data d t m nf cf).1 =
      (!(decide (m = "drop_fields") || decide (m = "drop_samples") ||
          decide (m = "fill_values")) ||
       (decide (m = "fill_values") &&
         (!(decide (nf = "zeroes") || decide (nf = "mean")) ||
          !(decide (cf = "common_unknown") || decide (cf = "unique_unknown"))))) := by
  by_cases h1 : m = "drop_fields"
  · subst h1
    have hL : isConfigErrorR (complete_missing_data d t "drop_fields" nf cf).1 = false := rfl
    rw [hL]
    simp
  · by_cases h2 : m = "drop_samples"
    · subst h2
      have hL : isConfigErrorR (complete_missing_data d t "drop_samples" nf cf).1 = false :=
        rfl
      rw [hL]
      simp
    · by_cases h3 : m = "fill_values"
      · subst h3
        by_cases h4 : nf = "zeroes" ∨ nf = "mean"
        · by_cases h5 : cf = "common_unknown" ∨ cf = "unique_unknown"
          · have hL : isConfigErrorR
                (complete_missing_data d t "fill_values" nf cf).1 = false := by
              unfold complete_missing_data
              rw [if_neg (by decide), if_neg (by decide),
                if_pos (rfl : "fill_values" = "fill_values"), if_pos h4, if_pos h5]
              have hall := exceptMapM_errPred (fillCatField_no_config cf)
                ((fillPass1 nf (d.fields.zip t)).zip t)
              exact (fillResultPair_errPred isConfigErr d t
                (exceptMapM (fillCatField cf) ((fillPass1 nf (d.fields.zip t)).zip t))).trans hall
            rw [hL]
            rcases h4 with h4 | h4 <;> rcases h5 with h5 | h5 <;> subst h4 <;> subst h5 <;>
              decide
          · have hL : isConfigErrorR
                (complete_missing_data d t "fill_values" nf cf).1 = true := by
              unfold complete_missing_data
              rw [if_neg (by decide), if_neg (by decide),
                if_pos (rfl : "fill_values" = "fill_values"), if_pos h4, if_neg h5]
              rfl
            rw [hL]
            have hc1 : decide (cf = "common_unknown") = false :=
              decide_eq_false (fun hc => h5 (Or.inl hc))
            have hc2 : decide (cf = "unique_unknown") = false :=
              decide_eq_false (fun hc => h5 (Or.inr hc))
            rw [hc1, hc2]
            simp
        · have hL : isConfigErrorR
              (complete_missing_data d t "fill_values" nf cf).1 = true := by
            unfold complete_missing_data
            rw [if_neg (by decide), if_neg (by decide),
              if_pos (rfl : "fill_values" = "fill_values"), if_neg h4]
            rfl
          rw [hL]
          have hn1 : decide (nf = "zeroes") = false :=
            decide_eq_false (fun hc => h4 (Or.inl hc))
          have hn2 : decide (nf = "mean") = false :=
            decide_eq_false (fun hc => h4 (Or.inr hc))
          rw [hn1, hn2]
          simp
      · have hL : isConfigErrorR (complete_missing_data d t m nf cf).1 = true := by
          unfold complete_missing_data
          rw [if_neg h1, if_neg h2, if_neg h3]
          rfl
        rw [hL]
        rw [decide_eq_false h1, decide_eq_false h2, decide_eq_false h3]
        simp

theorem scaleEntry_fst (stdFn : List (Option ℚ) → ℚ) (f : String × Column) (ty : FieldType) :
    (scaleEntry stdFn f ty).1 = f.1 := by
  rcases f with ⟨n, c⟩
  cases c <;> cases ty <;> rfl

theorem zipWith_scaled_names (stdFn : List (Option ℚ) → ℚ) :
    ∀ (fs : List (String × Column)) (ts : List FieldType),
    ((((List.zipWith (scaleEntry stdFn) fs ts).zip ts).filter
        (fun p => numericTag p.2)).map (fun p => p.1)).map (fun f => f.1) =
    (((fs.zip ts).filter (fun p => numericTag p.2)).map (fun p => p.1)).map (fun f => f.1) := by
  intro fs
  induction fs with
  | nil => intro ts; cases ts <;> rfl
  | cons f fs ih =>
    intro ts
    cases ts with
    | nil => rfl
    | cons ty ts =>
      simp only [List.zipWith_cons_cons, List.zip_cons_cons, List.filter_cons]
      by_cases hty : numericTag ty = true
      · simp [hty, scaleEntry_fst, ih ts]
      · have hty2 : numericTag ty = false := by
          cases hbool : numericTag ty
          · rfl
          · exact absurd hbool hty
        simp [hty2, ih ts]

theorem scaled_numericFieldNames (stdFn : List (Option ℚ) → ℚ) (d : Dataset)
    (t : List FieldType) :
    numericFieldNames (Dataset.scaled stdFn d t) t = numericFieldNames d t := by
  simp only [numericFieldNames, numericFieldsOf, Dataset.scaled]
  exact zipWith_scaled_names stdFn d.fields t

theorem dictInsert_not_mem (m : List (String × String)) (k v : String)
    (h : ¬ k ∈ m.map Prod.fst) : dictInsert m k v = m ++ [(k, v)] := by
  induction m with
  | nil => rfl
  | cons p rest ih =>
    simp only [List.map_cons, List.mem_cons] at h
    push_neg at h
    have hne : ¬ p.1 = k := fun hpk => h.1 hpk.symm
    simp only [dictInsert]
    rw [if_neg hne, ih h.2]
    rfl

theorem foldIns_nodup (ps : List (String × String)) :
    ∀ m : List (String × String), (m.map Prod.fst ++ ps.map Prod.fst).Nodup →
    foldIns m ps = m ++ ps := by
  induction ps with
  | nil =>
    intro m _
    simp [foldIns]
  | cons p rest ih =>
    intro m h
    have hmem : ¬ p.1 ∈ m.map Prod.fst := by
      intro hk
      rcases List.nodup_append.mp h with ⟨_, _, hdisj⟩
      exact hdisj hk (by simp)
    show foldIns (dictInsert m p.1 p.2) rest = m ++ p :: rest
    rw [dictInsert_not_mem m p.1 p.2 hmem]
    have h2 : ((m ++ [p]).map Prod.fst ++ rest.map Prod.fst).Nodup := by
      rw [List.map_append, List.append_assoc]
      simpa using h
    rw [ih (m ++ [p]) h2]
    simp

theorem dictLookup_of_mem : ∀ (ps : List (String × String)) (k v : String),
    (k, v) ∈ ps → (ps.map Prod.fst).Nodup → dictLookup ps k = some v := by
  intro ps
  induction ps with
  | nil =>
    intro k v hmem _
    cases hmem
  | cons p rest ih =>
    intro k v hmem hnd
    rcases List.mem_cons.mp hmem with hp | hp
    · subst hp
      simp [dictLookup]
    · have hnd1 := List.nodup_cons.mp hnd
      have hknotp : ¬ p.1 = k := by
        intro hpk
        apply hnd1.1
        rw [hpk]
        exact List.mem_map.mpr ⟨(k, v), hp, rfl⟩
      simp only [dictLookup]
      rw [if_neg hknotp]
      exact ih k v hp hnd1.2

theorem dictLookup_isSome_of_mem : ∀ (ps : List (String × String)) (k : String),
    k ∈ ps.map Prod.fst → (dictLookup ps k).isSome = true := by
  intro ps
  induction ps with
  | nil =>
    intro k h
    cases h
  | cons p rest ih =>
    intro k h
    simp only [dictLookup]
    by_cases hpk : p.1 = k
    · rw [if_pos hpk]
      rfl
    · rw [if_neg hpk]
      apply ih
      rcases List.mem_cons.mp h with h1 | h1
      · exact absurd h1.symm hpk
      · exact h1

theorem foldl_hconcat_columns : ∀ (encs : List NumFrame) (base : NumFrame),
    (encs.foldl hconcat base).columns = base.columns ++ encs.flatMap (fun e => e.columns) := by
  intro encs
  induction encs with
  | nil =>
    intro base
    simp
  | cons e rest ih =>
    intro base
    simp only [List.foldl_cons, List.flatMap_cons]
    rw [ih (hconcat base e)]
    simp [hconcat, List.append_assoc]

theorem zip_flatMap_snd : ∀ (xs : List String) (ys : List NumFrame),
    xs.length = ys.length →
    (xs.zip ys).flatMap (fun p => p.2.columns) = ys.flatMap (fun e => e.columns) := by
  intro xs
  induction xs with
  | nil =>
    intro ys h
    cases ys with
    | nil => rfl
    | cons y ys => simp at h
  | cons x xs ih =>
    intro ys h
    cases ys with
    | nil => simp at h
    | cons y ys =>
      simp only [List.zip_cons_cons, List.flatMap_cons]
      rw [ih ys (by simpa using h)]

theorem provPairs_keys (numNames catNames : List String) (encs : List NumFrame)
    (hlen : catNames.length = encs.length) :
    (provPairs numNames catNames encs).map Prod.fst =
      numNames ++ encs.flatMap (fun e => e.columns) := by
  simp only [provPairs, List.map_append]
  congr 1
  · rw [List.map_map]
    have hcomp : (Prod.fst ∘ fun f : String => (f, f)) = id := rfl
    rw [hcomp, List.map_id]
  · rw [List.map_flatMap, ← zip_flatMap_snd catNames encs hlen]
    apply List.flatMap_congr
    intro p hp
    rw [List.map_map]
    have hcomp : (Prod.fst ∘ fun c : String => (c, p.1)) = id := rfl
    rw [hcomp, List.map_id]

theorem preprocessCore_prov (d1 : Dataset) (t : List FieldType)
    (hok : isOkR (preprocessCore d1 t) = true)
    (hnd : (colsOf (preprocessCore d1 t)).Nodup) :
    (provOf (preprocessCore d1 t)).map Prod.fst = colsOf (preprocessCore d1 t) ∧
    (∀ f ∈ numericFieldNames d1 t, dictLookup (provOf (preprocessCore d1 t)) f = some f) ∧
    (∀ c ∈ colsOf (preprocessCore d1 t),
      (dictLookup (provOf (preprocessCore d1 t)) c).isSome = true) := by
  cases hE : exceptMapM (fun f => encodeField f.1 d1.index f.2) (catFieldsOf d1 t) with
  | error e =>
    exfalso
    simp [preprocessCore, hE, isOkR] at hok
  | ok encs =>
    have hcolseq : colsOf (preprocessCore d1 t) =
        numericFieldNames d1 t ++ encs.flatMap (fun e => e.columns) := by
      simp only [preprocessCore, hE, colsOf]
      exact foldl_hconcat_columns encs _
    have hlen : ((catFieldsOf d1 t).map (fun f => f.1)).length = encs.length := by
      rw [List.length_map, ← exceptMapM_ok_length hE]
    have hkeys : (provPairs (numericFieldNames d1 t)
        ((catFieldsOf d1 t).map (fun f => f.1)) encs).map Prod.fst =
        numericFieldNames d1 t ++ encs.flatMap (fun e => e.columns) :=
      provPairs_keys _ _ _ hlen
    have hndp : ((provPairs (numericFieldNames d1 t)
        ((catFieldsOf d1 t).map (fun f => f.1)) encs).map Prod.fst).Nodup := by
      rw [hkeys, ← hcolseq]
      exact hnd
    have hproveq : provOf (preprocessCore d1 t) =
        provPairs (numericFieldNames d1 t) ((catFieldsOf d1 t).map (fun f => f.1)) encs := by
      simp only [preprocessCore, hE, provOf]
      have := foldIns_nodup (provPairs (numericFieldNames d1 t)
        ((catFieldsOf d1 t).map (fun f => f.1)) encs) [] (by simpa using hndp)
      simpa using this
    refine ⟨?_, ?_, ?_⟩
    · rw [hproveq, hkeys, hcolseq]
    · intro f hf
      rw [hproveq]
      apply dictLookup_of_mem _ f f ?_ hndp
      simp only [provPairs]
      exact List.mem_append_left _ (List.mem_map.mpr ⟨f, hf, rfl⟩)
    · intro c hc
      rw [hproveq]
      apply dictLookup_isSome_of_mem
      rw [hkeys, ← hcolseq]
      exact hc

/-- C8 (amended): whenever the encoder succeeds and the encoded column
names are pairwise distinct, the key list of the provenance dict equals the
encoded column list exactly, every encoded column looks up to exactly one
original field, and every numeric field name maps to itself.  Without the
distinctness hypothesis the dict loop of lines 153 to 158 overwrites
entries, refuting the unconditional claim (see the counterexample). -/
theorem provenance_map_spec (stdFn : List (Option ℚ) → ℚ) (d : Dataset)
    (t : List FieldType) (s : Bool)
    (hok : isOkR (preprocess stdFn d t s).1 = true)
    (hnd : (colsOf (preprocess stdFn d t s).1).Nodup) :
    (provOf (preprocess stdFn d t s).1).map Prod.fst = colsOf (preprocess stdFn d t s).1 ∧
    (∀ f ∈ numericFieldNames d t,
      dictLookup (provOf (preprocess stdFn d t s).1) f = some f) ∧
    (∀ c ∈ colsOf (preprocess stdFn d t s).1,
      (dictLookup (provOf (preprocess stdFn d t s).1) c).isSome = true) := by
  cases s with
  | false => exact preprocessCore_prov d t hok hnd
  | true =>
    rcases preprocessCore_prov (Dataset.scaled stdFn d t) t hok hnd with ⟨h1, h2, h3⟩
    refine ⟨h1, ?_, h3⟩
    intro f hf
    apply h2 f
    rw [scaled_numericFieldNames]
    exact hf

/-- C8 (witness): the amended theorem applied to a dataset with a numeric
field n and a categorical field c over the single category a, whose encoded
columns n and c_a are distinct. -/
theorem provenance_map_spec_witness :
    isOkR (preprocess stdOne dClean [FieldType.Numeric, FieldType.Categorical] false).1 = true ∧
    (colsOf (preprocess stdOne dClean
      [FieldType.Numeric, FieldType.Categorical] false).1).Nodup ∧
    ((provOf (preprocess stdOne dClean [FieldType.Numeric, FieldType.Categorical] false).1).map
        Prod.fst =
      colsOf (preprocess stdOne dClean [FieldType.Numeric, FieldType.Categorical] false).1 ∧
     (∀ f ∈ numericFieldNames dClean [FieldType.Numeric, FieldType.Categorical],
       dictLookup (provOf (preprocess stdOne dClean
         [FieldType.Numeric, FieldType.Categorical] false).1) f = some f) ∧
     (∀ c ∈ colsOf (preprocess stdOne dClean [FieldType.Numeric, FieldType.Categorical] false).1,
       (dictLookup (provOf (preprocess stdOne dClean
         [FieldType.Numeric, FieldType.Categorical] false).1) c).isSome = true)) :=
  ⟨by decide, by decide,
   provenance_map_spec stdOne dClean [FieldType.Numeric, FieldType.Categorical] false
     (by decide) (by decide)⟩

/-- C8 (counterexample): with a numeric field named a_b and a categorical
field a over the single category b, the one-hot column is also named a_b;
the categorical loop of lines 156 to 158 then overwrites the numeric entry
of the provenance dict, so the numeric field name a_b maps to a, not to
itself, refuting the claim for arbitrary datasets. -/
theorem provenance_collision_cex :
    isOkR (preprocess stdOne dCollide [FieldType.Numeric, FieldType.Categorical] false).1 =
      true ∧
    colsOf (preprocess stdOne dCollide [FieldType.Numeric, FieldType.Categorical] false).1 =
      ["a_b", "a_b"] ∧
    dictLookup (provOf (preprocess stdOne dCollide
      [FieldType.Numeric, FieldType.Categorical] false).1) "a_b" = some "a" ∧
    decide (dictLookup (provOf (preprocess stdOne dCollide
      [FieldType.Numeric, FieldType.Categorical] false).1) "a_b" = some "a_b") = false := by
  refine ⟨by decide, by decide, by decide, by decide⟩
